import Mathlib

/-!
# Verification of the Sphinx header construction and key derivation

Shallow embedding of the header-construction and key-derivation core of a
Sphinx mix-network packet format (`src/header/header.rs`, `src/header/keys.rs`,
`src/lib.rs`).  Byte strings are modelled as `List Nat`; the Curve25519, HMAC,
HKDF and stream-cipher primitives live in a `crypto`/`utils` module that is not
part of the sources, so they are taken as abstract function parameters,
constrained only by their output-length laws where a claim needs them.
-/

namespace Sphinx

/-- A byte string.  Each entry stands for one byte. -/
abbrev Bytes := List Nat

/-! ## Constants

`src/constants.rs` is not among the sources; the values below are
modelled from the spec (§3, "Constants"): κ = 16, r = 5, 32-byte keys. -/

/-- Modelled from the spec: the security parameter κ (16 bytes). -/
def SECURITY_PARAMETER : Nat := 16

/-- Modelled from the spec: maximum supported hops including destination (r = 5). -/
def MAX_PATH_LENGTH : Nat := 5

/-- Modelled from the spec: final address width, 2·κ. -/
def DESTINATION_LENGTH : Nat := 2 * SECURITY_PARAMETER

/-- Modelled from the spec: SURB identifier width, κ. -/
def IDENTIFIER_LENGTH : Nat := SECURITY_PARAMETER

/-- Modelled from the spec: truncated integrity-MAC width, κ. -/
def INTEGRITY_MAC_SIZE : Nat := SECURITY_PARAMETER

/-- Modelled from the spec: stream-cipher key length. -/
def STREAM_CIPHER_KEY_SIZE : Nat := 32

/-- Modelled from the spec: integrity-MAC key length. -/
def INTEGRITY_MAC_KEY_SIZE : Nat := 32

/-- Modelled from the spec: payload stream-cipher key length. -/
def PAYLOAD_KEY_SIZE : Nat := 32

/-- Modelled from the spec: total HKDF output,
`STREAM_CIPHER_KEY_SIZE + INTEGRITY_MAC_KEY_SIZE + PAYLOAD_KEY_SIZE`. -/
def ROUTING_KEYS_LENGTH : Nat :=
  STREAM_CIPHER_KEY_SIZE + INTEGRITY_MAC_KEY_SIZE + PAYLOAD_KEY_SIZE

/-- Modelled from the spec: fixed encrypted-header size, (2·r − 1)·κ. -/
def ROUTING_INFO_LENGTH : Nat := (2 * MAX_PATH_LENGTH - 1) * SECURITY_PARAMETER

/-- Modelled from the spec: keystream budget per hop, (2·r + 3)·κ. -/
def STREAM_CIPHER_OUTPUT_LENGTH : Nat :=
  (2 * MAX_PATH_LENGTH + 3) * SECURITY_PARAMETER

/-- Modelled from the spec: the published fixed stream-cipher IV (opaque value). -/
def STREAM_CIPHER_INIT_VECTOR : Bytes := List.replicate 16 0

/-- Modelled from the spec: fixed application-specific HKDF info string (opaque value). -/
def HKDF_INPUT_SEED : Bytes := [104, 107, 100, 102]

/-! ## Byte utilities

`src/utils/bytes.rs` is not among the sources.  Modelled from the spec:
component C2 provides a byte-wise XOR; §4.4 step 3 fixes its behaviour on
inputs of unequal length ("truncated by the XOR … take the first
`ROUTING_INFO_LENGTH` bytes"), i.e. the result is as long as the shorter input. -/

/-- Modelled from the spec: byte-wise XOR of two byte strings, truncating to the
shorter of the two inputs. -/
def xor (a b : Bytes) : Bytes := List.zipWith (fun x y => x ^^^ y) a b

/-! ## Route model (`src/header/header.rs`, lines 15–46) -/

/-- `MixNode` from header.rs: a forwarding mix with its address and public key.
The public-key / curve-point type is abstract (`P`). -/
structure MixNode (P : Type) where
  address : Bytes
  pub_key : P
  deriving DecidableEq

/-- `Destination` from header.rs: final address, SURB identifier and public key. -/
structure Destination (P : Type) where
  address : Bytes
  identifier : Bytes
  pub_key : P
  deriving DecidableEq

/-- `RouteElement` from header.rs: either a final destination or a forwarding mix. -/
inductive RouteElement (P : Type) where
  | FinalHop (destination : Destination P)
  | ForwardHop (host : MixNode P)
  deriving DecidableEq

/-- `RouteElement::get_pub_key` from header.rs. -/
def RouteElement.get_pub_key {P : Type} : RouteElement P → P
  | .FinalHop destination => destination.pub_key
  | .ForwardHop host => host.pub_key

/-- `RoutingKeys` from header.rs (lines 48–53): the three per-hop keys.
Field widths (`[u8; N]`) become length side conditions where a claim needs them. -/
structure RoutingKeys where
  stream_cipher_key : Bytes
  header_integrity_hmac_key : Bytes
  payload_key : Bytes
  deriving DecidableEq

/-- `RoutingInfo` from header.rs (lines 55–58). -/
structure RoutingInfo where
  enc_header : Bytes
  header_integrity_hmac : Bytes
  deriving DecidableEq

/-- Result type for the header builder.  `rustPanic` models the Rust panics in
header.rs (`expect`, `panic`, failed `assert`, out-of-range indexing, usize
underflow), carrying the panic message.  `invalidRoute` and
`keyVectorMismatch` are the typed errors named by the spec (§7); they appear
here only so that claims about them can be stated — the source code never
produces them. -/
inductive BuildError where
  | invalidRoute
  | keyVectorMismatch
  | rustPanic (msg : String)
  deriving DecidableEq

/-! ## Curve and hash primitives

`src/utils/crypto.rs` is not among the sources.  Modelled from the spec
(§2 component C1): Curve25519 scalar/point operations, 32-byte point
encoding, and HMAC-SHA256 reduced to a scalar mod the curve order.
`S` is the scalar type, `P` the curve-point type. -/

structure CurveOps (S P : Type) where
  /-- `CURVE_GENERATOR`. -/
  generator : P
  /-- Point–scalar multiplication (Rust `PublicKey * &Scalar`). -/
  smul : P → S → P
  /-- Scalar multiplication modulo the curve order. -/
  mulS : S → S → S
  /-- 32-byte encoding of a point (`.to_bytes()`). -/
  toBytes : P → Bytes
  /-- HMAC-SHA256 keyed with the first argument, applied to the second, the
  32-byte tag reduced modulo the curve order (`Scalar::from_bytes_mod_order`). -/
  hmac_to_scalar : Bytes → Bytes → S

/-! ## Key derivation (`src/header/keys.rs`) -/

/-- `compute_keyed_hmac` from keys.rs (lines 70–76): HMAC-SHA256 keyed by
`alpha` over `data`, reduced mod the curve order; the primitive itself is
abstract in `C`. -/
def compute_keyed_hmac {S P : Type} (C : CurveOps S P) (alpha data : Bytes) : S :=
  C.hmac_to_scalar alpha data

/-- `compute_shared_key` from keys.rs (lines 66–68). -/
def compute_shared_key {S P : Type} (C : CurveOps S P) (node_pub_key : P) (exponent : S) : P :=
  C.smul node_pub_key exponent

/-- `compute_blinding_factor` from keys.rs (lines 47–50). -/
def compute_blinding_factor {S P : Type} (C : CurveOps S P) (shared_key : P) (exponent : S) : S :=
  compute_keyed_hmac C (C.toBytes (C.smul C.generator exponent)) (C.toBytes shared_key)

/-- The `scan` inside `derive` (keys.rs lines 22–37): the list of per-hop shared
keys, threading the blinding accumulator.  A `ForwardHop` multiplies the
accumulator by the blinding factor; a `FinalHop` leaves it unchanged. -/
def derive_shared_keys {S P : Type} (C : CurveOps S P) :
    List (RouteElement P) → S → List P
  | [], _ => []
  | e :: rest, accumulator =>
    let shared_key := compute_shared_key C e.get_pub_key accumulator
    match e with
    | .ForwardHop _ =>
        shared_key ::
          derive_shared_keys C rest
            (C.mulS accumulator (compute_blinding_factor C shared_key accumulator))
    | .FinalHop _ => shared_key :: derive_shared_keys C rest accumulator

/-- `key_derivation_function` from keys.rs (lines 54–64).  `hkdf ikm info len`
abstracts `Hkdf::<Sha256>::new(None, ikm).expand(info, out[len])`.  The source
expands `ROUTING_KEYS_LENGTH` bytes but then builds
`RoutingKeys { stream_cipher_key }`, setting only the stream-cipher key; the
`header_integrity_hmac_key` and `payload_key` fields declared in header.rs are
never assigned (this record expression does not even compile against the
header.rs declaration).  The two unset fields are modelled as empty. -/
def key_derivation_function {S P : Type} (C : CurveOps S P)
    (hkdf : Bytes → Bytes → Nat → Bytes) (shared_key : P) : RoutingKeys :=
  let output := hkdf (C.toBytes shared_key) HKDF_INPUT_SEED ROUTING_KEYS_LENGTH
  { stream_cipher_key := output.take STREAM_CIPHER_KEY_SIZE
    header_integrity_hmac_key := []
    payload_key := [] }

/-- `KeyMaterial` from keys.rs (lines 13–16). -/
structure KeyMaterial (P : Type) where
  initial_shared_secret : P
  routing_keys : List RoutingKeys

/-- `derive` from keys.rs (lines 19–45). -/
def derive {S P : Type} (C : CurveOps S P) (hkdf : Bytes → Bytes → Nat → Bytes)
    (route : List (RouteElement P)) (initial_secret : S) : KeyMaterial P :=
  { initial_shared_secret := C.smul C.generator initial_secret
    routing_keys :=
      (derive_shared_keys C route initial_secret).map (key_derivation_function C hkdf) }

/-- The blinding accumulator exactly as the spec describes it (§4.1): `a₀` is
the initial secret; after a `ForwardHop` with public key `pk`,
`a_{i+1} = a_i · H_hmac(enc(g·a_i), enc(pk·a_i))`; after a `FinalHop`,
`a_{i+1} = a_i`.  Written from the spec's words, to be compared with the
accumulator `derive` threads. -/
def spec_accumulator {S P : Type} (C : CurveOps S P) :
    List (RouteElement P) → S → Nat → S
  | _, a, 0 => a
  | [], a, _ + 1 => a
  | .ForwardHop host :: rest, a, i + 1 =>
      spec_accumulator C rest
        (C.mulS a (C.hmac_to_scalar (C.toBytes (C.smul C.generator a))
          (C.toBytes (C.smul host.pub_key a)))) i
  | .FinalHop _ :: rest, a, i + 1 => spec_accumulator C rest a i

/-! ## Header construction (`src/header/header.rs`) -/

/-- `generate_routing_info_integrity_mac` from header.rs (lines 145–153):
HMAC-SHA256 (abstract `hmacBytes`) truncated to `INTEGRITY_MAC_SIZE` bytes. -/
def generate_routing_info_integrity_mac (hmacBytes : Bytes → Bytes → Bytes)
    (key data : Bytes) : Bytes :=
  (hmacBytes key data).take INTEGRITY_MAC_SIZE

/-- `encrypt_routing_info` from header.rs (lines 130–143): XOR the components
with the first `(2·MAX_PATH_LENGTH − 1)·SECURITY_PARAMETER` bytes of the
keystream (`prg key iv len` abstracts `generate_pseudorandom_bytes`). -/
def encrypt_routing_info (prg : Bytes → Bytes → Nat → Bytes)
    (key : Bytes) (routing_info_components : Bytes) : Bytes :=
  let pseudorandom_bytes := prg key STREAM_CIPHER_INIT_VECTOR STREAM_CIPHER_OUTPUT_LENGTH
  xor routing_info_components
    (pseudorandom_bytes.take ((2 * MAX_PATH_LENGTH - 1) * SECURITY_PARAMETER))

/-- One iteration of the wrapping loop in
`encapsulate_routing_info_and_integrity_macs` (header.rs lines 99–118), at
loop index `i`: MAC under `routing_keys[i+1]`, prepend the next hop's address
and the MAC, re-encrypt under `routing_keys[i]`.  Out-of-range indexing and a
non-mix-node route element are Rust panics. -/
def encapsulate_layer {P : Type} (prg : Bytes → Bytes → Nat → Bytes)
    (hmacBytes : Bytes → Bytes → Bytes) (route : List (RouteElement P))
    (routing_keys : List RoutingKeys) (i : Nat) (routing_info : Bytes) :
    Except BuildError Bytes :=
  match routing_keys[i + 1]? with
  | none => .error (.rustPanic "index out of bounds")
  | some next_keys =>
    let routing_info_mac :=
      generate_routing_info_integrity_mac hmacBytes
        next_keys.header_integrity_hmac_key routing_info
    match route[i]? with
    | none => .error (.rustPanic "index out of bounds")
    | some (.FinalHop _) => .error (.rustPanic "The next route element must be a mix node")
    | some (.ForwardHop mixnode) =>
      match routing_keys[i]? with
      | none => .error (.rustPanic "index out of bounds")
      | some current_keys =>
        .ok (encrypt_routing_info prg current_keys.stream_cipher_key
          (mixnode.address ++ routing_info_mac ++ routing_info))

/-- The loop `for i in (0..route.len() - 1).rev()` of header.rs lines 99–118:
`encapsulate_loop … k ri` runs the layers at indices `k − 1, …, 0`. -/
def encapsulate_loop {P : Type} (prg : Bytes → Bytes → Nat → Bytes)
    (hmacBytes : Bytes → Bytes → Bytes) (route : List (RouteElement P))
    (routing_keys : List RoutingKeys) : Nat → Bytes → Except BuildError Bytes
  | 0, routing_info => .ok routing_info
  | k + 1, routing_info =>
    match encapsulate_layer prg hmacBytes route routing_keys k routing_info with
    | .error e => .error e
    | .ok next => encapsulate_loop prg hmacBytes route routing_keys k next

/-- `encapsulate_routing_info_and_integrity_macs` from header.rs (lines 93–128). -/
def encapsulate_routing_info_and_integrity_macs {P : Type}
    (prg : Bytes → Bytes → Nat → Bytes) (hmacBytes : Bytes → Bytes → Bytes)
    (final_routing_info : Bytes) (route : List (RouteElement P))
    (routing_keys : List RoutingKeys) : Except BuildError RoutingInfo :=
  match encapsulate_loop prg hmacBytes route routing_keys
      (route.length - 1) final_routing_info with
  | .error e => .error e
  | .ok routing_info =>
    match routing_keys[0]? with
    | none => .error (.rustPanic "index out of bounds")
    | some first_keys =>
      .ok { enc_header := routing_info
            header_integrity_hmac :=
              generate_routing_info_integrity_mac hmacBytes
                first_keys.header_integrity_hmac_key routing_info }

/-- `generate_final_routing_info` from header.rs (lines 155–177).  `rnd n`
abstracts `bytes::random(n)` (n uniformly random bytes).  The `usize`
subtraction `MAX_PATH_LENGTH - route_len` underflows (a Rust panic) when
`route_len > MAX_PATH_LENGTH`, and the source `assert!` on the address length
is a panic when it fails. -/
def generate_final_routing_info {P : Type} (rnd : Nat → Bytes) (filler : Bytes)
    (route_len : Nat) (destination : Destination P) (pseudorandom_bytes : Bytes) :
    Except BuildError Bytes :=
  if route_len ≤ MAX_PATH_LENGTH then
    if destination.address.length ≤
        (2 * (MAX_PATH_LENGTH - route_len) + 2) * SECURITY_PARAMETER then
      let final_destination_bytes := destination.address ++ destination.identifier
      let padding := rnd
        ((2 * (MAX_PATH_LENGTH - route_len) + 2) * SECURITY_PARAMETER -
          destination.address.length)
      let padded_final_destination := final_destination_bytes ++ padding
      let xored_bytes := xor padded_final_destination
        (pseudorandom_bytes.take
          ((2 * (MAX_PATH_LENGTH - route_len) + 3) * SECURITY_PARAMETER))
      .ok (xored_bytes ++ filler)
    else .error (.rustPanic "assertion failed")
  else .error (.rustPanic "attempt to subtract with overflow")

/-- `generate_all_routing_info` from header.rs (lines 60–91).  The two
`expect`s and the non-destination `panic` become `rustPanic` errors. -/
def generate_all_routing_info {P : Type} (prg : Bytes → Bytes → Nat → Bytes)
    (hmacBytes : Bytes → Bytes → Bytes) (rnd : Nat → Bytes)
    (route : List (RouteElement P)) (routing_keys : List RoutingKeys)
    (filler_string : Bytes) : Except BuildError RoutingInfo :=
  match routing_keys.getLast? with
  | none => .error (.rustPanic "The keys should be already initialized")
  | some final_keys =>
    match route.getLast? with
    | none => .error (.rustPanic "The route should not be empty")
    | some (.ForwardHop _) =>
        .error (.rustPanic "The last route element must be a destination")
    | some (.FinalHop final_hop) =>
      let pseudorandom_bytes := prg final_keys.stream_cipher_key
        STREAM_CIPHER_INIT_VECTOR STREAM_CIPHER_OUTPUT_LENGTH
      match generate_final_routing_info rnd filler_string route.length
          final_hop pseudorandom_bytes with
      | .error e => .error e
      | .ok final_routing_info =>
        encapsulate_routing_info_and_integrity_macs prg hmacBytes
          final_routing_info route routing_keys

/-! ## Packet assembly (`src/lib.rs`) -/

/-- `ProcessingError` from lib.rs (lines 33–39). -/
inductive ProcessingError where
  | InvalidRoutingInformationLengthError
  | InvalidHeaderLengthError
  | InvalidPayloadLengthError
  | InvalidPacketLengthError
  deriving DecidableEq

/-- `SphinxPacket` from lib.rs (lines 48–52); header and payload types are
abstract since their modules are not among the sources. -/
structure SphinxPacket (H Pl : Type) where
  header : H
  payload : Pl
  deriving DecidableEq

/-- `SphinxPacket::from_bytes` from lib.rs (lines 114–125).  Modelled from the
spec where lib.rs depends on code outside the sources: `header_size` and
`payload_size` stand for the constants `HEADER_SIZE` and `PAYLOAD_SIZE`
(so `PACKET_SIZE = header_size + payload_size`), and `header_from_bytes` /
`payload_from_bytes` stand for `SphinxHeader::from_bytes` /
`Payload::from_bytes`. -/
def SphinxPacket.from_bytes {H Pl : Type} (header_size payload_size : Nat)
    (header_from_bytes : Bytes → Except ProcessingError H)
    (payload_from_bytes : Bytes → Except ProcessingError Pl)
    (bytes : Bytes) : Except ProcessingError (SphinxPacket H Pl) :=
  if bytes.length ≠ header_size + payload_size then
    .error .InvalidPacketLengthError
  else
    match header_from_bytes (bytes.take header_size) with
    | .error e => .error e
    | .ok header =>
      match payload_from_bytes (bytes.drop header_size) with
      | .error e => .error e
      | .ok payload => .ok { header := header, payload := payload }

/-! ## Concrete instantiations used by witnesses and counterexamples -/

/-- A concrete stand-in keystream generator: `n` copies of byte 0. -/
def prg0 : Bytes → Bytes → Nat → Bytes := fun _ _ n => List.replicate n 0

/-- A concrete stand-in HMAC-SHA256: a fixed 32-byte tag. -/
def hmac0 : Bytes → Bytes → Bytes := fun _ _ => List.replicate 32 1

/-- A concrete stand-in random-byte source: `n` copies of byte 2. -/
def rnd0 : Nat → Bytes := fun n => List.replicate n 2

/-- A concrete stand-in HKDF oracle: `len` copies of byte 3. -/
def hkdf0 : Bytes → Bytes → Nat → Bytes := fun _ _ n => List.replicate n 3

/-- Concrete curve operations over `S = Nat`, `P = Nat` (a toy commutative
action; the theorems quantify over arbitrary `CurveOps`). -/
def curve0 : CurveOps Nat Nat :=
  { generator := 2
    smul := fun p s => p * s
    mulS := fun a b => a * b
    toBytes := fun p => [p]
    hmac_to_scalar := fun a d => a.length + d.length }

/-- A concrete one-hop route: a single final destination. -/
def route1 : List (RouteElement Nat) :=
  [.FinalHop { address := List.replicate 32 3, identifier := List.replicate 16 4, pub_key := 7 }]

/-- A concrete routing-key triple. -/
def keysA : RoutingKeys :=
  { stream_cipher_key := List.replicate 32 5
    header_integrity_hmac_key := List.replicate 32 6
    payload_key := List.replicate 32 7 }

/-- A second concrete routing-key triple. -/
def keysB : RoutingKeys :=
  { stream_cipher_key := List.replicate 32 8
    header_integrity_hmac_key := List.replicate 32 9
    payload_key := List.replicate 32 10 }

/-- A concrete two-hop route: one forward hop, then the destination. -/
def route2 : List (RouteElement Nat) :=
  [.ForwardHop { address := List.replicate 32 11, pub_key := 13 },
   .FinalHop { address := List.replicate 32 3, identifier := List.replicate 16 4, pub_key := 7 }]

/-- A concrete HKDF oracle returning all zeros (agrees with `hkdfB` on the
stream-cipher-key prefix of the output). -/
def hkdfA : Bytes → Bytes → Nat → Bytes := fun _ _ n => List.replicate n 0

/-- A concrete HKDF oracle whose output beyond the first
`STREAM_CIPHER_KEY_SIZE` bytes — the integrity-MAC-key and payload-key
portions — differs from `hkdfA`. -/
def hkdfB : Bytes → Bytes → Nat → Bytes :=
  fun _ _ n => List.replicate (min n 32) 0 ++ List.replicate (n - 32) 9

/-- A concrete stand-in header parser that always succeeds. -/
def hfb0 : Bytes → Except ProcessingError Unit := fun _ => .ok ()

/-- A concrete stand-in payload parser that always succeeds. -/
def pfb0 : Bytes → Except ProcessingError Unit := fun _ => .ok ()

/-- The one-step update of the blinding accumulator, per route element. -/
def accumulator_update {S P : Type} (C : CurveOps S P) (e : RouteElement P) (a : S) : S :=
  match e with
  | .ForwardHop host =>
      C.mulS a (C.hmac_to_scalar (C.toBytes (C.smul C.generator a))
        (C.toBytes (C.smul host.pub_key a)))
  | .FinalHop _ => a

/-- A concrete destination record. -/
def dest1 : Destination Nat :=
  { address := List.replicate 32 3, identifier := List.replicate 16 4, pub_key := 7 }

/-! ## Basic lemmas -/

theorem length_xor (a b : Bytes) : (xor a b).length = min a.length b.length := by
  simp [xor]

theorem derive_shared_keys_length {S P : Type} (C : CurveOps S P)
    (route : List (RouteElement P)) (a : S) :
    (derive_shared_keys C route a).length = route.length := by
  induction route generalizing a with
  | nil => rfl
  | cons e rest ih => cases e <;> simp [derive_shared_keys, ih]

theorem spec_accumulator_zero {S P : Type} (C : CurveOps S P)
    (route : List (RouteElement P)) (a : S) : spec_accumulator C route a 0 = a := by
  cases route with
  | nil => rfl
  | cons e rest => cases e <;> rfl

theorem spec_accumulator_succ_cons {S P : Type} (C : CurveOps S P)
    (e : RouteElement P) (rest : List (RouteElement P)) (a : S) (i : Nat) :
    spec_accumulator C (e :: rest) a (i + 1) =
      spec_accumulator C rest (accumulator_update C e a) i := by
  cases e <;> rfl

theorem derive_shared_keys_cons {S P : Type} (C : CurveOps S P)
    (e : RouteElement P) (rest : List (RouteElement P)) (a : S) :
    derive_shared_keys C (e :: rest) a =
      C.smul e.get_pub_key a ::
        derive_shared_keys C rest (accumulator_update C e a) := by
  cases e with
  | ForwardHop host =>
      simp [derive_shared_keys, accumulator_update, compute_shared_key,
        compute_blinding_factor, compute_keyed_hmac, RouteElement.get_pub_key]
  | FinalHop d =>
      simp [derive_shared_keys, accumulator_update, compute_shared_key,
        RouteElement.get_pub_key]

theorem derive_shared_keys_getElem {S P : Type} (C : CurveOps S P) :
    ∀ (route : List (RouteElement P)) (a : S) (i : Nat) (e : RouteElement P),
      route[i]? = some e →
      (derive_shared_keys C route a)[i]? =
        some (C.smul e.get_pub_key (spec_accumulator C route a i)) := by
  intro route
  induction route with
  | nil => intro a i e h; simp at h
  | cons f rest ih =>
    intro a i e h
    cases i with
    | zero =>
      simp only [List.getElem?_cons_zero, Option.some.injEq] at h
      subst h
      rw [derive_shared_keys_cons, spec_accumulator_zero]
      simp
    | succ i =>
      simp only [List.getElem?_cons_succ] at h
      rw [derive_shared_keys_cons, spec_accumulator_succ_cons]
      simpa using ih (accumulator_update C f a) i e h

theorem spec_accumulator_step {S P : Type} (C : CurveOps S P) :
    ∀ (route : List (RouteElement P)) (a : S) (i : Nat) (e : RouteElement P),
      route[i]? = some e →
      spec_accumulator C route a (i + 1) =
        accumulator_update C e (spec_accumulator C route a i) := by
  intro route
  induction route with
  | nil => intro a i e h; simp at h
  | cons f rest ih =>
    intro a i e h
    cases i with
    | zero =>
      simp only [List.getElem?_cons_zero, Option.some.injEq] at h
      subst h
      rw [spec_accumulator_succ_cons, spec_accumulator_zero, spec_accumulator_zero]
    | succ i =>
      simp only [List.getElem?_cons_succ] at h
      rw [spec_accumulator_succ_cons, spec_accumulator_succ_cons]
      exact ih (accumulator_update C f a) i e h

/-! ## Claim theorems: key derivation -/

/-- C6: for every route (including the empty one) and every initial scalar,
`derive` returns one `RoutingKeys` per route element and
`initial_shared_secret = CURVE_GENERATOR · initial_secret`; the empty route
yields zero routing keys. -/
theorem derive_key_material_counts {S P : Type} (C : CurveOps S P)
    (hkdf : Bytes → Bytes → Nat → Bytes) (route : List (RouteElement P)) (x0 : S) :
    (derive C hkdf route x0).routing_keys.length = route.length ∧
    (derive C hkdf route x0).initial_shared_secret = C.smul C.generator x0 ∧
    (derive C hkdf ([] : List (RouteElement P)) x0).routing_keys = [] := by
  refine ⟨?_, rfl, rfl⟩
  simp [derive, derive_shared_keys_length]

/-- C9: `derive` imposes no well-formedness check: it is total on arbitrary
routes (with or without a `FinalHop` terminator, or with a `FinalHop` in any
position) and returns exactly one `RoutingKeys` per route element; a
`FinalHop` anywhere leaves the accumulator unchanged for the remaining hops. -/
theorem derive_no_route_validation {S P : Type} (C : CurveOps S P)
    (hkdf : Bytes → Bytes → Nat → Bytes) (route : List (RouteElement P)) (x0 : S) :
    (derive C hkdf route x0).routing_keys.length = route.length ∧
    (∀ (d : Destination P) (rest : List (RouteElement P)) (a : S),
      derive_shared_keys C (.FinalHop d :: rest) a =
        C.smul d.pub_key a :: derive_shared_keys C rest a) := by
  constructor
  · simp [derive, derive_shared_keys_length]
  · intro d rest a
    simp [derive_shared_keys, compute_shared_key, RouteElement.get_pub_key]

/-- C8: the key-derivation function is deterministic — syntactically a pure
function, and its output depends only on the byte encoding of the shared
secret (no hidden state enters the computation). -/
theorem key_derivation_function_deterministic {S P : Type} (C : CurveOps S P)
    (hkdf : Bytes → Bytes → Nat → Bytes) (s1 s2 : P) :
    key_derivation_function C hkdf s1 = key_derivation_function C hkdf s1 ∧
    (C.toBytes s1 = C.toBytes s2 →
      key_derivation_function C hkdf s1 = key_derivation_function C hkdf s2) := by
  refine ⟨rfl, fun h => ?_⟩
  simp [key_derivation_function, h]

/-- Witness for C8 at a concrete shared secret. -/
theorem key_derivation_function_deterministic_inst :
    key_derivation_function curve0 hkdf0 3 = key_derivation_function curve0 hkdf0 3 :=
  (key_derivation_function_deterministic curve0 hkdf0 3 3).2 rfl

/-- C3 (code bug): `key_derivation_function` expands `ROUTING_KEYS_LENGTH`
bytes of HKDF output but constructs `RoutingKeys` from the first
`STREAM_CIPHER_KEY_SIZE` bytes only: two HKDF oracles that agree on the
stream-cipher-key portion but differ on the integrity-MAC-key and payload-key
portions produce identical outputs, and the integrity-MAC and payload keys of
the result are never assigned. -/
theorem key_derivation_function_ignores_mac_and_payload_bytes :
    key_derivation_function curve0 hkdfA 7 = key_derivation_function curve0 hkdfB 7 ∧
    hkdfA (curve0.toBytes 7) HKDF_INPUT_SEED ROUTING_KEYS_LENGTH ≠
      hkdfB (curve0.toBytes 7) HKDF_INPUT_SEED ROUTING_KEYS_LENGTH ∧
    (key_derivation_function curve0 hkdfA 7).header_integrity_hmac_key = [] ∧
    (key_derivation_function curve0 hkdfA 7).payload_key = [] := by
  refine ⟨?_, ?_, rfl, rfl⟩ <;> decide

/-- C2: the shared secrets `derive` computes follow the spec's blinding chain:
`shared_secret_i = pub_key_i · a_i`, where `a_0 = initial_secret`, a
`ForwardHop` multiplies the accumulator by
`H_hmac(enc(g·a_i), enc(shared_secret_i))` reduced mod the curve order, and a
`FinalHop` leaves it unchanged; the routing keys are the KDF of exactly these
shared secrets. -/
theorem derive_shared_secrets_follow_blinding_chain {S P : Type} (C : CurveOps S P)
    (hkdf : Bytes → Bytes → Nat → Bytes) (route : List (RouteElement P)) (x0 : S)
    (i : Nat) (hi : i < route.length) :
    ∃ e, route[i]? = some e ∧
      (derive_shared_keys C route x0)[i]? =
        some (C.smul e.get_pub_key (spec_accumulator C route x0 i)) ∧
      (derive C hkdf route x0).routing_keys[i]? =
        some (key_derivation_function C hkdf
          (C.smul e.get_pub_key (spec_accumulator C route x0 i))) ∧
      spec_accumulator C route x0 0 = x0 ∧
      (∀ host : MixNode P, e = .ForwardHop host →
        spec_accumulator C route x0 (i + 1) =
          C.mulS (spec_accumulator C route x0 i)
            (C.hmac_to_scalar
              (C.toBytes (C.smul C.generator (spec_accumulator C route x0 i)))
              (C.toBytes (C.smul host.pub_key (spec_accumulator C route x0 i))))) ∧
      (∀ d : Destination P, e = .FinalHop d →
        spec_accumulator C route x0 (i + 1) = spec_accumulator C route x0 i) := by
  have he : route[i]? = some route[i] := List.getElem?_eq_getElem hi
  refine ⟨route[i], he, derive_shared_keys_getElem C route x0 i _ he, ?_, ?_, ?_, ?_⟩
  · show (derive C hkdf route x0).routing_keys[i]? = _
    simp only [derive, List.getElem?_map, derive_shared_keys_getElem C route x0 i _ he]
    rfl
  · exact spec_accumulator_zero C route x0
  · intro host hhost
    have := spec_accumulator_step C route x0 i _ he
    rw [hhost] at this
    simpa [accumulator_update] using this
  · intro d hd
    have := spec_accumulator_step C route x0 i _ he
    rw [hd] at this
    simpa [accumulator_update] using this

/-- Witness for C2 on a concrete two-hop route at index 0. -/
theorem derive_shared_secrets_follow_blinding_chain_inst :
    ∃ e, route2[0]? = some e ∧
      (derive_shared_keys curve0 route2 5)[0]? =
        some (curve0.smul e.get_pub_key (spec_accumulator curve0 route2 5 0)) ∧
      (derive curve0 hkdf0 route2 5).routing_keys[0]? =
        some (key_derivation_function curve0 hkdf0
          (curve0.smul e.get_pub_key (spec_accumulator curve0 route2 5 0))) ∧
      spec_accumulator curve0 route2 5 0 = 5 ∧
      (∀ host : MixNode Nat, e = .ForwardHop host →
        spec_accumulator curve0 route2 5 (0 + 1) =
          curve0.mulS (spec_accumulator curve0 route2 5 0)
            (curve0.hmac_to_scalar
              (curve0.toBytes (curve0.smul curve0.generator (spec_accumulator curve0 route2 5 0)))
              (curve0.toBytes (curve0.smul host.pub_key (spec_accumulator curve0 route2 5 0))))) ∧
      (∀ d : Destination Nat, e = .FinalHop d →
        spec_accumulator curve0 route2 5 (0 + 1) = spec_accumulator curve0 route2 5 0) :=
  derive_shared_secrets_follow_blinding_chain curve0 hkdf0 route2 5 0 (by decide)

/-! ## Lemmas on the header construction -/

theorem xor_xor_cancel : ∀ (a b : Bytes), a.length ≤ b.length → xor (xor a b) b = a := by
  intro a
  induction a with
  | nil => intro b _; rfl
  | cons x xs ih =>
    intro b h
    cases b with
    | nil => simp at h
    | cons y ys =>
      simp only [xor, List.zipWith_cons_cons] at ih ⊢
      have hx : x ^^^ y ^^^ y = x := by
        rw [Nat.xor_assoc, Nat.xor_self, Nat.xor_zero]
      rw [hx]
      have hlen : xs.length ≤ ys.length := by simpa using h
      rw [ih ys hlen]

/-- C7: XOR-ing the output of `encrypt_routing_info` again with the first
`ROUTING_INFO_LENGTH` keystream bytes recovers the plaintext, for any data of
length `ROUTING_INFO_LENGTH`. -/
theorem encrypt_routing_info_roundtrip (prg : Bytes → Bytes → Nat → Bytes)
    (prgLaw : ∀ k iv n, (prg k iv n).length = n) (key data : Bytes)
    (hdata : data.length = ROUTING_INFO_LENGTH) :
    xor (encrypt_routing_info prg key data)
      ((prg key STREAM_CIPHER_INIT_VECTOR STREAM_CIPHER_OUTPUT_LENGTH).take
        ROUTING_INFO_LENGTH) = data := by
  have h2 : (2 * MAX_PATH_LENGTH - 1) * SECURITY_PARAMETER = ROUTING_INFO_LENGTH := rfl
  simp only [encrypt_routing_info, h2]
  apply xor_xor_cancel
  rw [hdata, List.length_take, prgLaw]
  simp [ROUTING_INFO_LENGTH, STREAM_CIPHER_OUTPUT_LENGTH, MAX_PATH_LENGTH,
    SECURITY_PARAMETER]

/-- Witness for C7 at a concrete key and data string. -/
theorem encrypt_routing_info_roundtrip_inst :
    xor (encrypt_routing_info prg0 (List.replicate 32 5) (List.replicate 144 7))
      ((prg0 (List.replicate 32 5) STREAM_CIPHER_INIT_VECTOR
        STREAM_CIPHER_OUTPUT_LENGTH).take ROUTING_INFO_LENGTH) =
      List.replicate 144 7 :=
  encrypt_routing_info_roundtrip prg0 (fun _ _ n => by simp [prg0])
    (List.replicate 32 5) (List.replicate 144 7)
    (by simp [ROUTING_INFO_LENGTH, MAX_PATH_LENGTH, SECURITY_PARAMETER])

/-- For a route length within bounds and a destination of the declared widths,
`generate_final_routing_info` succeeds and its output is the filler preceded by
a block of `(2·(MAX_PATH_LENGTH − route_len) + 3)·κ` bytes. -/
theorem generate_final_routing_info_ok {P : Type} (rnd : Nat → Bytes)
    (rndLaw : ∀ n, (rnd n).length = n) (filler : Bytes) (route_len : Nat)
    (destination : Destination P) (pseudorandom_bytes : Bytes)
    (h5 : route_len ≤ MAX_PATH_LENGTH)
    (haddr : destination.address.length = DESTINATION_LENGTH)
    (hid : destination.identifier.length = IDENTIFIER_LENGTH)
    (hprg : pseudorandom_bytes.length = STREAM_CIPHER_OUTPUT_LENGTH) :
    ∃ block,
      generate_final_routing_info rnd filler route_len destination pseudorandom_bytes =
        .ok (block ++ filler) ∧
      block = xor (destination.address ++ destination.identifier ++
          rnd ((2 * (MAX_PATH_LENGTH - route_len) + 2) * SECURITY_PARAMETER -
            DESTINATION_LENGTH))
        (pseudorandom_bytes.take
          ((2 * (MAX_PATH_LENGTH - route_len) + 3) * SECURITY_PARAMETER)) ∧
      block.length = (2 * (MAX_PATH_LENGTH - route_len) + 3) * SECURITY_PARAMETER := by
  have haddr' : destination.address.length = 32 := by
    simpa [DESTINATION_LENGTH, SECURITY_PARAMETER] using haddr
  have hid' : destination.identifier.length = 16 := by
    simpa [IDENTIFIER_LENGTH, SECURITY_PARAMETER] using hid
  have hassert : destination.address.length ≤
      (2 * (MAX_PATH_LENGTH - route_len) + 2) * SECURITY_PARAMETER := by
    rw [haddr']
    simp only [SECURITY_PARAMETER]
    omega
  rw [generate_final_routing_info, if_pos h5, if_pos hassert]
  refine ⟨_, rfl, by rw [haddr, List.append_assoc], ?_⟩
  rw [length_xor, List.length_take, List.length_append, List.length_append,
    rndLaw, haddr', hid', hprg]
  simp only [SECURITY_PARAMETER, MAX_PATH_LENGTH, STREAM_CIPHER_OUTPUT_LENGTH,
    DESTINATION_LENGTH]
  omega

set_option maxRecDepth 8192 in
/-- Counterexample for C4: at `route_len = 1` (with empty filler, so the output
is exactly the final-hop block) the block has
`(2·(MAX_PATH_LENGTH − 1) + 3)·κ = 176` bytes, not the
`(2·(MAX_PATH_LENGTH − 1) + 2)·κ = 160` bytes the claim states. -/
theorem final_routing_info_block_length_route_one :
    (generate_final_routing_info rnd0 [] 1 dest1 (List.replicate 208 0)).toOption.map
        List.length = some 176 ∧
    (2 * (MAX_PATH_LENGTH - 1) + 2) * SECURITY_PARAMETER = 160 ∧
    (176 : Nat) ≠ 160 := by
  obtain ⟨block, hout, _, hlen⟩ :=
    generate_final_routing_info_ok rnd0 (fun n => by simp [rnd0]) [] 1 dest1
      (List.replicate 208 0)
      (by simp [MAX_PATH_LENGTH])
      (by simp [dest1, DESTINATION_LENGTH, SECURITY_PARAMETER])
      (by simp [dest1, IDENTIFIER_LENGTH, SECURITY_PARAMETER])
      (by simp [STREAM_CIPHER_OUTPUT_LENGTH, MAX_PATH_LENGTH, SECURITY_PARAMETER])
  refine ⟨?_, by simp [MAX_PATH_LENGTH, SECURITY_PARAMETER], by omega⟩
  rw [hout, List.append_nil]
  show some block.length = some 176
  rw [hlen]
  simp [MAX_PATH_LENGTH, SECURITY_PARAMETER]

/-- C4 (amended): the final-hop block before the filler has
`(2·(MAX_PATH_LENGTH − route_len) + 3)·κ` bytes — the claimed
`(2·(MAX_PATH_LENGTH − route_len) + 2)·κ` plus `IDENTIFIER_LENGTH` — while the
random padding has `(2·(MAX_PATH_LENGTH − route_len) + 2)·κ −
DESTINATION_LENGTH` bytes, exactly as claimed. -/
theorem generate_final_routing_info_block_length {P : Type} (rnd : Nat → Bytes)
    (rndLaw : ∀ n, (rnd n).length = n) (filler : Bytes) (route_len : Nat)
    (destination : Destination P) (pseudorandom_bytes : Bytes)
    (_h1 : 1 ≤ route_len) (h5 : route_len ≤ MAX_PATH_LENGTH)
    (haddr : destination.address.length = DESTINATION_LENGTH)
    (hid : destination.identifier.length = IDENTIFIER_LENGTH)
    (hprg : pseudorandom_bytes.length = STREAM_CIPHER_OUTPUT_LENGTH) :
    ∃ block,
      generate_final_routing_info rnd filler route_len destination pseudorandom_bytes =
        .ok (block ++ filler) ∧
      block = xor (destination.address ++ destination.identifier ++
          rnd ((2 * (MAX_PATH_LENGTH - route_len) + 2) * SECURITY_PARAMETER -
            DESTINATION_LENGTH))
        (pseudorandom_bytes.take
          ((2 * (MAX_PATH_LENGTH - route_len) + 3) * SECURITY_PARAMETER)) ∧
      block.length = (2 * (MAX_PATH_LENGTH - route_len) + 3) * SECURITY_PARAMETER ∧
      (rnd ((2 * (MAX_PATH_LENGTH - route_len) + 2) * SECURITY_PARAMETER -
        DESTINATION_LENGTH)).length =
        (2 * (MAX_PATH_LENGTH - route_len) + 2) * SECURITY_PARAMETER -
          DESTINATION_LENGTH := by
  obtain ⟨block, hout, hblock, hlen⟩ :=
    generate_final_routing_info_ok rnd rndLaw filler route_len destination
      pseudorandom_bytes h5 haddr hid hprg
  exact ⟨block, hout, hblock, hlen, rndLaw _⟩

set_option maxRecDepth 8192 in
/-- Witness for C4 (amended) at route length 3. -/
theorem generate_final_routing_info_block_length_inst :
    ∃ block,
      generate_final_routing_info rnd0 (List.replicate 64 9) 3 dest1
          (List.replicate 208 0) =
        .ok (block ++ List.replicate 64 9) ∧
      block = xor (dest1.address ++ dest1.identifier ++
          rnd0 ((2 * (MAX_PATH_LENGTH - 3) + 2) * SECURITY_PARAMETER -
            DESTINATION_LENGTH))
        ((List.replicate 208 0).take
          ((2 * (MAX_PATH_LENGTH - 3) + 3) * SECURITY_PARAMETER)) ∧
      block.length = (2 * (MAX_PATH_LENGTH - 3) + 3) * SECURITY_PARAMETER ∧
      (rnd0 ((2 * (MAX_PATH_LENGTH - 3) + 2) * SECURITY_PARAMETER -
        DESTINATION_LENGTH)).length =
        (2 * (MAX_PATH_LENGTH - 3) + 2) * SECURITY_PARAMETER -
          DESTINATION_LENGTH :=
  generate_final_routing_info_block_length rnd0 (fun n => by simp [rnd0])
    (List.replicate 64 9) 3 dest1 (List.replicate 208 0)
    (by omega) (by simp [MAX_PATH_LENGTH])
    (by simp [dest1, DESTINATION_LENGTH, SECURITY_PARAMETER])
    (by simp [dest1, IDENTIFIER_LENGTH, SECURITY_PARAMETER])
    (by simp [STREAM_CIPHER_OUTPUT_LENGTH, MAX_PATH_LENGTH, SECURITY_PARAMETER])

theorem encrypt_routing_info_length (prg : Bytes → Bytes → Nat → Bytes)
    (prgLaw : ∀ k iv n, (prg k iv n).length = n) (key comps : Bytes) :
    (encrypt_routing_info prg key comps).length =
      min comps.length ROUTING_INFO_LENGTH := by
  rw [encrypt_routing_info, length_xor, List.length_take, prgLaw]
  simp only [ROUTING_INFO_LENGTH, STREAM_CIPHER_OUTPUT_LENGTH, MAX_PATH_LENGTH,
    SECURITY_PARAMETER]
  omega

theorem encapsulate_layer_ok {P : Type} (prg : Bytes → Bytes → Nat → Bytes)
    (hmacB : Bytes → Bytes → Bytes)
    (prgLaw : ∀ k iv n, (prg k iv n).length = n)
    (hmacLaw : ∀ k d, (hmacB k d).length = 32)
    (route : List (RouteElement P)) (keys : List RoutingKeys)
    (i : Nat) (ri : Bytes)
    (hkeys : keys.length = route.length)
    (hi : i + 1 < route.length)
    (hfwd : ∃ m, route[i]? = some (.ForwardHop m) ∧ m.address.length = 32) :
    ∃ out, encapsulate_layer prg hmacB route keys i ri = .ok out ∧
      out.length = min (48 + ri.length) ROUTING_INFO_LENGTH := by
  obtain ⟨m, hm, hmaddr⟩ := hfwd
  have hk1 : keys[i + 1]? = some keys[i + 1] :=
    List.getElem?_eq_getElem (by omega)
  have hk0 : keys[i]? = some keys[i] :=
    List.getElem?_eq_getElem (by omega)
  rw [encapsulate_layer, hk1, hm, hk0]
  refine ⟨_, rfl, ?_⟩
  rw [encrypt_routing_info_length prg prgLaw]
  simp only [List.length_append, generate_routing_info_integrity_mac,
    List.length_take, hmacLaw, hmaddr, INTEGRITY_MAC_SIZE, SECURITY_PARAMETER]
  omega

theorem encapsulate_loop_ok {P : Type} (prg : Bytes → Bytes → Nat → Bytes)
    (hmacB : Bytes → Bytes → Bytes)
    (prgLaw : ∀ k iv n, (prg k iv n).length = n)
    (hmacLaw : ∀ k d, (hmacB k d).length = 32)
    (route : List (RouteElement P)) (keys : List RoutingKeys)
    (hkeys : keys.length = route.length)
    (hfwd : ∀ i, i + 1 < route.length →
      ∃ m, route[i]? = some (.ForwardHop m) ∧ m.address.length = 32) :
    ∀ (k : Nat) (ri : Bytes), k ≤ route.length - 1 →
      ROUTING_INFO_LENGTH ≤ ri.length →
      ∃ out, encapsulate_loop prg hmacB route keys k ri = .ok out ∧
        out.length = if k = 0 then ri.length else ROUTING_INFO_LENGTH := by
  intro k
  induction k with
  | zero => intro ri _ _; exact ⟨ri, rfl, by simp⟩
  | succ k ih =>
    intro ri hk hri
    obtain ⟨next, hnext, hlen⟩ :=
      encapsulate_layer_ok prg hmacB prgLaw hmacLaw route keys k ri hkeys
        (by omega) (hfwd k (by omega))
    obtain ⟨out, hout, holen⟩ := ih next (by omega) (by omega)
    refine ⟨out, ?_, ?_⟩
    · rw [encapsulate_loop, hnext]
      exact hout
    · rw [if_neg (Nat.succ_ne_zero k)]
      cases k with
      | zero => simp only [reduceIte] at holen; omega
      | succ k' => simpa using holen

theorem encapsulate_ok {P : Type} (prg : Bytes → Bytes → Nat → Bytes)
    (hmacB : Bytes → Bytes → Bytes)
    (prgLaw : ∀ k iv n, (prg k iv n).length = n)
    (hmacLaw : ∀ k d, (hmacB k d).length = 32)
    (route : List (RouteElement P)) (keys : List RoutingKeys)
    (hne : 1 ≤ route.length)
    (hkeys : keys.length = route.length)
    (hfwd : ∀ i, i + 1 < route.length →
      ∃ m, route[i]? = some (.ForwardHop m) ∧ m.address.length = 32)
    (ri : Bytes) (hri : ROUTING_INFO_LENGTH ≤ ri.length) :
    ∃ out, encapsulate_routing_info_and_integrity_macs prg hmacB ri route keys = .ok out ∧
      out.enc_header.length = (if route.length = 1 then ri.length else ROUTING_INFO_LENGTH) ∧
      out.header_integrity_hmac.length = INTEGRITY_MAC_SIZE := by
  obtain ⟨ri', hri', hlen'⟩ :=
    encapsulate_loop_ok prg hmacB prgLaw hmacLaw route keys hkeys hfwd
      (route.length - 1) ri (Nat.le_refl _) hri
  have hk0 : keys[0]? = some keys[0] := List.getElem?_eq_getElem (by omega)
  rw [encapsulate_routing_info_and_integrity_macs, hri', hk0]
  refine ⟨_, rfl, ?_, ?_⟩
  · show ri'.length = _
    rw [hlen']
    have hiff : (route.length - 1 = 0) ↔ (route.length = 1) := by omega
    by_cases hone : route.length = 1
    · rw [if_pos (hiff.mpr hone), if_pos hone]
    · rw [if_neg (fun h => hone (hiff.mp h)), if_neg hone]
  · show (generate_routing_info_integrity_mac hmacB
        keys[0].header_integrity_hmac_key ri').length = _
    simp [generate_routing_info_integrity_mac, List.length_take, hmacLaw,
      INTEGRITY_MAC_SIZE, SECURITY_PARAMETER]

/-- C1 (amended): for every valid route with `2 ≤ route_len ≤ MAX_PATH_LENGTH`
the returned `enc_header` has exactly `(2·MAX_PATH_LENGTH − 1)·κ` bytes; for
`route_len = 1`, however, it has `(2·MAX_PATH_LENGTH + 1)·κ` bytes.  The
`header_integrity_hmac` has κ bytes for every valid route length. -/
theorem generate_all_routing_info_length {P : Type} (prg : Bytes → Bytes → Nat → Bytes)
    (hmacB : Bytes → Bytes → Bytes) (rnd : Nat → Bytes)
    (prgLaw : ∀ k iv n, (prg k iv n).length = n)
    (hmacLaw : ∀ k d, (hmacB k d).length = 32)
    (rndLaw : ∀ n, (rnd n).length = n)
    (route : List (RouteElement P)) (keys : List RoutingKeys) (filler : Bytes)
    (h1 : 1 ≤ route.length) (h5 : route.length ≤ MAX_PATH_LENGTH)
    (hkeys : keys.length = route.length)
    (hfiller : filler.length = 2 * SECURITY_PARAMETER * (route.length - 1))
    (hlast : ∃ d, route.getLast? = some (.FinalHop d) ∧
      d.address.length = DESTINATION_LENGTH ∧ d.identifier.length = IDENTIFIER_LENGTH)
    (hfwd : ∀ i, i + 1 < route.length →
      ∃ m, route[i]? = some (.ForwardHop m) ∧ m.address.length = DESTINATION_LENGTH) :
    ∃ ri, generate_all_routing_info prg hmacB rnd route keys filler = .ok ri ∧
      ri.enc_header.length =
        (if route.length = 1 then (2 * MAX_PATH_LENGTH + 1) * SECURITY_PARAMETER
         else ROUTING_INFO_LENGTH) ∧
      ri.header_integrity_hmac.length = INTEGRITY_MAC_SIZE := by
  obtain ⟨d, hd, haddr, hid⟩ := hlast
  have hkne : keys ≠ [] := by
    intro h
    rw [h] at hkeys
    simp at hkeys
    omega
  obtain ⟨fk, hfk⟩ := Option.isSome_iff_exists.mp (List.getLast?_isSome.mpr hkne)
  rw [generate_all_routing_info]
  simp only [hfk, hd]
  obtain ⟨block, hout, _, hblen⟩ :=
    generate_final_routing_info_ok rnd rndLaw filler route.length d
      (prg fk.stream_cipher_key STREAM_CIPHER_INIT_VECTOR STREAM_CIPHER_OUTPUT_LENGTH)
      h5 haddr hid (prgLaw _ _ _)
  rw [hout]
  have hfwd' : ∀ i, i + 1 < route.length →
      ∃ m, route[i]? = some (.ForwardHop m) ∧ m.address.length = 32 := by
    intro i hi
    obtain ⟨m, hm, hma⟩ := hfwd i hi
    exact ⟨m, hm, by simpa [DESTINATION_LENGTH, SECURITY_PARAMETER] using hma⟩
  have h5' : route.length ≤ 5 := by simpa [MAX_PATH_LENGTH] using h5
  have htotal : (block ++ filler).length =
      (2 * MAX_PATH_LENGTH + 1) * SECURITY_PARAMETER := by
    rw [List.length_append, hblen, hfiller]
    simp only [MAX_PATH_LENGTH, SECURITY_PARAMETER]
    omega
  have hge : ROUTING_INFO_LENGTH ≤ (block ++ filler).length := by
    rw [htotal]
    simp only [ROUTING_INFO_LENGTH, MAX_PATH_LENGTH, SECURITY_PARAMETER]
    omega
  obtain ⟨out, hok, henc, hmac⟩ :=
    encapsulate_ok prg hmacB prgLaw hmacLaw route keys h1 hkeys hfwd'
      (block ++ filler) hge
  refine ⟨out, hok, ?_, hmac⟩
  rw [henc, htotal]
  

set_option maxRecDepth 100000 in
/-- Counterexample for C1: on a valid route of length 1 (destination only) the
construction succeeds but `enc_header` has 176 bytes, not the
`ROUTING_INFO_LENGTH = (2·MAX_PATH_LENGTH − 1)·κ = 144` bytes the claim
requires for every `1 ≤ route_len ≤ MAX_PATH_LENGTH`. -/
theorem enc_header_length_route_one :
    (generate_all_routing_info prg0 hmac0 rnd0 route1 [keysA] []).toOption.map
        (fun ri => ri.enc_header.length) = some 176 ∧
    ROUTING_INFO_LENGTH = 144 ∧ (176 : Nat) ≠ 144 := by
  refine ⟨by decide, by decide, by decide⟩

set_option maxRecDepth 8192 in
/-- Witness for C1 (amended) on a valid route of length 2. -/
theorem generate_all_routing_info_length_inst :
    ∃ ri, generate_all_routing_info prg0 hmac0 rnd0 route2 [keysA, keysB]
        (List.replicate 32 12) = .ok ri ∧
      ri.enc_header.length =
        (if route2.length = 1 then (2 * MAX_PATH_LENGTH + 1) * SECURITY_PARAMETER
         else ROUTING_INFO_LENGTH) ∧
      ri.header_integrity_hmac.length = INTEGRITY_MAC_SIZE :=
  generate_all_routing_info_length prg0 hmac0 rnd0
    (fun _ _ n => by simp [prg0]) (fun _ _ => by simp [hmac0])
    (fun n => by simp [rnd0]) route2 [keysA, keysB] (List.replicate 32 12)
    (by simp [route2]) (by simp [route2, MAX_PATH_LENGTH])
    (by simp [route2]) (by simp [route2, SECURITY_PARAMETER])
    ⟨dest1, by simp [route2, dest1],
      by simp [dest1, DESTINATION_LENGTH, SECURITY_PARAMETER],
      by simp [dest1, IDENTIFIER_LENGTH, SECURITY_PARAMETER]⟩
    (by
      intro i hi
      have hi0 : i = 0 := by simp [route2] at hi; omega
      subst hi0
      exact ⟨{ address := List.replicate 32 11, pub_key := 13 },
        by simp [route2], by simp [DESTINATION_LENGTH, SECURITY_PARAMETER]⟩)

theorem encapsulate_layer_error_is_panic {P : Type} (prg : Bytes → Bytes → Nat → Bytes)
    (hmacB : Bytes → Bytes → Bytes) (route : List (RouteElement P))
    (keys : List RoutingKeys) (i : Nat) (ri : Bytes) :
    ∀ e, encapsulate_layer prg hmacB route keys i ri = .error e →
      ∃ msg, e = BuildError.rustPanic msg := by
  intro e h
  rw [encapsulate_layer] at h
  cases hk1 : keys[i + 1]? with
  | none =>
    simp only [hk1, Except.error.injEq] at h
    exact ⟨_, h.symm⟩
  | some k1 =>
    simp only [hk1] at h
    cases hr : route[i]? with
    | none =>
      simp only [hr, Except.error.injEq] at h
      exact ⟨_, h.symm⟩
    | some el =>
      cases el with
      | FinalHop d =>
        simp only [hr, Except.error.injEq] at h
        exact ⟨_, h.symm⟩
      | ForwardHop m =>
        simp only [hr] at h
        cases hk0 : keys[i]? with
        | none =>
          simp only [hk0, Except.error.injEq] at h
          exact ⟨_, h.symm⟩
        | some k0 =>
          simp only [hk0] at h
          exact Except.noConfusion h

theorem encapsulate_loop_error_is_panic {P : Type} (prg : Bytes → Bytes → Nat → Bytes)
    (hmacB : Bytes → Bytes → Bytes) (route : List (RouteElement P))
    (keys : List RoutingKeys) :
    ∀ (k : Nat) (ri : Bytes) (e : BuildError),
      encapsulate_loop prg hmacB route keys k ri = .error e →
      ∃ msg, e = BuildError.rustPanic msg := by
  intro k
  induction k with
  | zero =>
    intro ri e h
    exact Except.noConfusion h
  | succ k ih =>
    intro ri e h
    rw [encapsulate_loop] at h
    cases hl : encapsulate_layer prg hmacB route keys k ri with
    | error e2 =>
      simp only [hl, Except.error.injEq] at h
      obtain ⟨msg, hmsg⟩ := encapsulate_layer_error_is_panic prg hmacB route keys k ri e2 hl
      exact ⟨msg, by rw [← h, hmsg]⟩
    | ok next =>
      simp only [hl] at h
      exact ih next e h

theorem generate_final_routing_info_error_is_panic {P : Type} (rnd : Nat → Bytes)
    (filler : Bytes) (route_len : Nat) (destination : Destination P)
    (pseudorandom_bytes : Bytes) :
    ∀ e, generate_final_routing_info rnd filler route_len destination
        pseudorandom_bytes = .error e →
      ∃ msg, e = BuildError.rustPanic msg := by
  intro e h
  rw [generate_final_routing_info] at h
  split_ifs at h
  all_goals exact ⟨_, (Except.error.inj h).symm⟩

theorem encapsulate_error_is_panic {P : Type} (prg : Bytes → Bytes → Nat → Bytes)
    (hmacB : Bytes → Bytes → Bytes) (final_routing_info : Bytes)
    (route : List (RouteElement P)) (keys : List RoutingKeys) :
    ∀ e, encapsulate_routing_info_and_integrity_macs prg hmacB final_routing_info
        route keys = .error e →
      ∃ msg, e = BuildError.rustPanic msg := by
  intro e h
  rw [encapsulate_routing_info_and_integrity_macs] at h
  cases hl : encapsulate_loop prg hmacB route keys (route.length - 1)
      final_routing_info with
  | error e2 =>
    simp only [hl, Except.error.injEq] at h
    obtain ⟨msg, hmsg⟩ :=
      encapsulate_loop_error_is_panic prg hmacB route keys (route.length - 1)
        final_routing_info e2 hl
    exact ⟨msg, by rw [← h, hmsg]⟩
  | ok ri =>
    simp only [hl] at h
    cases hk : keys[0]? with
    | none =>
      simp only [hk, Except.error.injEq] at h
      exact ⟨_, h.symm⟩
    | some k0 =>
      simp only [hk] at h
      exact Except.noConfusion h

theorem generate_all_routing_info_error_is_panic {P : Type}
    (prg : Bytes → Bytes → Nat → Bytes) (hmacB : Bytes → Bytes → Bytes)
    (rnd : Nat → Bytes) (route : List (RouteElement P))
    (keys : List RoutingKeys) (filler : Bytes) :
    ∀ e, generate_all_routing_info prg hmacB rnd route keys filler = .error e →
      ∃ msg, e = BuildError.rustPanic msg := by
  intro e h
  rw [generate_all_routing_info] at h
  cases hk : keys.getLast? with
  | none =>
    simp only [hk, Except.error.injEq] at h
    exact ⟨_, h.symm⟩
  | some fk =>
    simp only [hk] at h
    cases hr : route.getLast? with
    | none =>
      simp only [hr, Except.error.injEq] at h
      exact ⟨_, h.symm⟩
    | some el =>
      cases el with
      | ForwardHop m =>
        simp only [hr, Except.error.injEq] at h
        exact ⟨_, h.symm⟩
      | FinalHop d =>
        simp only [hr] at h
        cases hg : generate_final_routing_info rnd filler route.length d
            (prg fk.stream_cipher_key STREAM_CIPHER_INIT_VECTOR
              STREAM_CIPHER_OUTPUT_LENGTH) with
        | error e2 =>
          simp only [hg, Except.error.injEq] at h
          obtain ⟨msg, hmsg⟩ :=
            generate_final_routing_info_error_is_panic rnd filler route.length d
              (prg fk.stream_cipher_key STREAM_CIPHER_INIT_VECTOR
                STREAM_CIPHER_OUTPUT_LENGTH) e2 hg
          exact ⟨msg, by rw [← h, hmsg]⟩
        | ok fri =>
          simp only [hg] at h
          exact encapsulate_error_is_panic prg hmacB fri route keys e h

/-- C5 (amended): on invalid input — an empty key vector, an empty route, a
last route element that is not a `FinalHop`, or a nonempty key vector shorter
than the route — the header builder returns no `RoutingInfo` but aborts with a
Rust panic (modelled as a `rustPanic` error value) identifying the first
violated check; and every error the function can return, on any input
whatsoever, is such a panic — never the typed errors `invalidRoute` or
`keyVectorMismatch` the spec names. -/
theorem generate_all_routing_info_invalid_input_panics {P : Type}
    (prg : Bytes → Bytes → Nat → Bytes) (hmacB : Bytes → Bytes → Bytes)
    (rnd : Nat → Bytes) (route : List (RouteElement P))
    (keys : List RoutingKeys) (filler : Bytes) :
    (∀ e, generate_all_routing_info prg hmacB rnd route keys filler = .error e →
      ∃ msg, e = BuildError.rustPanic msg) ∧
    (keys = [] →
      generate_all_routing_info prg hmacB rnd route keys filler =
        .error (.rustPanic "The keys should be already initialized")) ∧
    (keys ≠ [] → route = [] →
      generate_all_routing_info prg hmacB rnd route keys filler =
        .error (.rustPanic "The route should not be empty")) ∧
    (∀ m : MixNode P, keys ≠ [] → route.getLast? = some (.ForwardHop m) →
      generate_all_routing_info prg hmacB rnd route keys filler =
        .error (.rustPanic "The last route element must be a destination")) ∧
    (∀ d : Destination P, keys ≠ [] → route.getLast? = some (.FinalHop d) →
      d.address.length = DESTINATION_LENGTH → route.length ≤ MAX_PATH_LENGTH →
      keys.length < route.length →
      generate_all_routing_info prg hmacB rnd route keys filler =
        .error (.rustPanic "index out of bounds")) := by
  refine ⟨generate_all_routing_info_error_is_panic prg hmacB rnd route keys filler,
    ?_, ?_, ?_, ?_⟩
  · intro h
    subst h
    rfl
  · intro hk hr
    subst hr
    obtain ⟨fk, hfk⟩ := Option.isSome_iff_exists.mp (List.getLast?_isSome.mpr hk)
    rw [generate_all_routing_info]
    simp only [hfk]
    rfl
  · intro m hk hlastF
    obtain ⟨fk, hfk⟩ := Option.isSome_iff_exists.mp (List.getLast?_isSome.mpr hk)
    rw [generate_all_routing_info]
    simp only [hfk, hlastF]
  · intro d hk hlastD haddr h5 hlt
    obtain ⟨fk, hfk⟩ := Option.isSome_iff_exists.mp (List.getLast?_isSome.mpr hk)
    have hassert : d.address.length ≤
        (2 * (MAX_PATH_LENGTH - route.length) + 2) * SECURITY_PARAMETER := by
      rw [haddr]
      simp only [DESTINATION_LENGTH, SECURITY_PARAMETER]
      omega
    rw [generate_all_routing_info]
    simp only [hfk, hlastD]
    obtain ⟨fri, hgf⟩ : ∃ fri, generate_final_routing_info rnd filler route.length d
        (prg fk.stream_cipher_key STREAM_CIPHER_INIT_VECTOR
          STREAM_CIPHER_OUTPUT_LENGTH) = .ok fri := by
      rw [generate_final_routing_info, if_pos h5, if_pos hassert]
      exact ⟨_, rfl⟩
    rw [hgf]
    show encapsulate_routing_info_and_integrity_macs prg hmacB fri route keys = _
    have hkpos : 0 < keys.length := List.length_pos.mpr hk
    obtain ⟨k', hk'⟩ : ∃ k', route.length - 1 = k' + 1 :=
      ⟨route.length - 2, by omega⟩
    have hnone : keys[k' + 1]? = none := by
      rw [List.getElem?_eq_none_iff]
      omega
    rw [encapsulate_routing_info_and_integrity_macs, hk', encapsulate_loop,
      encapsulate_layer, hnone]

/-- Counterexample for C5: called with an empty route and an empty key vector,
the builder's result is the modelled Rust panic from the
`routing_keys.last().expect(…)` call — not the typed `InvalidRoute` or
`KeyVectorMismatch` error the claim promises (and the message names the key
vector, not the violated route precondition). -/
theorem empty_route_panics_not_typed_error :
    generate_all_routing_info prg0 hmac0 rnd0 ([] : List (RouteElement Nat)) [] [] =
      .error (.rustPanic "The keys should be already initialized") ∧
    BuildError.rustPanic "The keys should be already initialized" ≠
      BuildError.invalidRoute ∧
    BuildError.rustPanic "The keys should be already initialized" ≠
      BuildError.keyVectorMismatch := by
  refine ⟨rfl, by decide, by decide⟩

/-- Witness for C5 (amended): a nonempty route with an empty key vector
panics at the key `expect`. -/
theorem generate_all_routing_info_invalid_input_panics_inst :
    generate_all_routing_info prg0 hmac0 rnd0 route2 ([] : List RoutingKeys) [] =
      .error (.rustPanic "The keys should be already initialized") :=
  (generate_all_routing_info_invalid_input_panics prg0 hmac0 rnd0 route2 [] []).2.1 rfl

/-- C10: `SphinxPacket::from_bytes` rejects exactly the byte strings whose
length differs from `PACKET_SIZE = HEADER_SIZE + PAYLOAD_SIZE` with
`InvalidPacketLengthError`; when the length matches, that error is never
returned (provided the header and payload parsers never return it, which holds
of the other `ProcessingError` variants they use). -/
theorem from_bytes_packet_length_check {H Pl : Type} (header_size payload_size : Nat)
    (header_from_bytes : Bytes → Except ProcessingError H)
    (payload_from_bytes : Bytes → Except ProcessingError Pl) (bytes : Bytes)
    (hh : ∀ b, header_from_bytes b ≠ .error .InvalidPacketLengthError)
    (hp : ∀ b, payload_from_bytes b ≠ .error .InvalidPacketLengthError) :
    (bytes.length ≠ header_size + payload_size →
      SphinxPacket.from_bytes header_size payload_size header_from_bytes
        payload_from_bytes bytes = .error .InvalidPacketLengthError) ∧
    (bytes.length = header_size + payload_size →
      SphinxPacket.from_bytes header_size payload_size header_from_bytes
        payload_from_bytes bytes ≠ .error .InvalidPacketLengthError) := by
  constructor
  · intro hne
    rw [SphinxPacket.from_bytes, if_pos hne]
  · intro heq
    rw [SphinxPacket.from_bytes, if_neg (by simp [heq])]
    cases hhb : header_from_bytes (bytes.take header_size) with
    | error e =>
      simp only [hhb]
      intro hc
      injection hc with he
      exact hh _ (by rw [hhb, he])
    | ok h =>
      simp only [hhb]
      cases hpb : payload_from_bytes (bytes.drop header_size) with
      | error e =>
        simp only [hpb]
        intro hc
        injection hc with he
        exact hp _ (by rw [hpb, he])
      | ok p =>
        simp only [hpb]
        intro hc
        exact Except.noConfusion hc

/-- Witness for C10 with one-byte header and payload sizes and trivial
parsers: a 1-byte string is rejected, a 2-byte string is not. -/
theorem from_bytes_packet_length_check_inst :
    SphinxPacket.from_bytes 1 1 hfb0 pfb0 [0] = .error .InvalidPacketLengthError ∧
    SphinxPacket.from_bytes 1 1 hfb0 pfb0 [0, 0] ≠ .error .InvalidPacketLengthError :=
  ⟨(from_bytes_packet_length_check 1 1 hfb0 pfb0 [0]
      (fun b => by simp [hfb0]) (fun b => by simp [pfb0])).1 (by simp),
   (from_bytes_packet_length_check 1 1 hfb0 pfb0 [0, 0]
      (fun b => by simp [hfb0]) (fun b => by simp [pfb0])).2 (by simp)⟩

end Sphinx
